import Mathlib

/-!
Verification of the metadata research and reconciliation pipeline of the
`nenet` repository, shallowly embedded in Lean 4.

The embedding follows the Python source:
* `src/service/item_metadata_service.py` — the orchestrator
  (`research_item_metadata`), the LLM stage (`_research_with_llm`), the web
  stage (`_research_with_web`), the missing-attribute computation
  (`_identify_missing_attributes`), the field validator
  (`_validate_llm_metadata`, `_validate_group`), the fusion step
  (`_combine_research_results`), and `create_item_from_research`.
* `src/routes/wiki.py` — the request-level policy (`research_item_metadata`
  route handler).
* `src/scripts/new.py` — the JSON-recovery utilities
  (`clean_json_response`, `extract_json_from_response`,
  `manual_json_extraction`).

Python dynamic values are modelled by the `Value` type; Python dictionaries
restricted to the fixed key sets the code actually probes are modelled as
structures with `Option Value` fields (`Option.none` = key absent).  External
collaborators (the Groq LLM client, the Firecrawl web service, the database)
are modelled as explicit inputs: availability flags and `Except`-valued call
outcomes (`Except.error` = the call raised).  `datetime.now().year` is an
explicit `currentYear` parameter.
-/

namespace Nenet

/-- A Python runtime value, restricted to the shapes that flow through the
metadata pipeline: `None`, booleans, integers and strings. -/
inductive Value where
  | vNone : Value
  | vBool : Bool → Value
  | vInt : Int → Value
  | vStr : String → Value
deriving DecidableEq, Repr

/-- Python truthiness of a `Value` (`bool(x)`). -/
def Value.truthy : Value → Bool
  | .vNone => false
  | .vBool b => b
  | .vInt n => n != 0
  | .vStr s => s != ""

/-- Python `str(x)` on a `Value`. -/
def pyStr : Value → String
  | .vNone => "None"
  | .vBool b => if b then "True" else "False"
  | .vInt n => toString n
  | .vStr s => s

/-- Python whitespace characters recognised by `str.strip` and `int(str)`. -/
def isPySpace (c : Char) : Bool :=
  c = ' ' || c = '\t' || c = '\n' || c = '\r' || c = '\x0b' || c = '\x0c'

/-- Drop leading characters satisfying `p`. -/
def dropWhileCh (p : Char → Bool) : List Char → List Char
  | [] => []
  | c :: rest => if p c then dropWhileCh p rest else c :: rest

theorem dropWhileCh_length_le (p : Char → Bool) :
    ∀ s : List Char, (dropWhileCh p s).length ≤ s.length := by
  intro s
  induction s with
  | nil => simp [dropWhileCh]
  | cons c rest ih =>
    simp only [dropWhileCh]
    split
    · exact Nat.le_succ_of_le ih
    · simp

/-- Python `s.lstrip()` over a character list. -/
def lstripChars (s : List Char) : List Char := dropWhileCh isPySpace s

/-- Python `s.rstrip()` over a character list. -/
def rstripChars (s : List Char) : List Char :=
  (dropWhileCh isPySpace s.reverse).reverse

/-- Python `s.strip()` over a character list. -/
def stripChars (s : List Char) : List Char := rstripChars (lstripChars s)

/-- Python `int(s)` on a string: optional surrounding whitespace, an optional
sign, then a non-empty run of decimal digits; anything else raises
(`Option.none`). -/
def parseIntStr (s : String) : Option Int :=
  let t := (dropWhileCh isPySpace ((dropWhileCh isPySpace s.data).reverse)).reverse
  match t with
  | [] => Option.none
  | c :: rest =>
    let signed : Bool × List Char :=
      if c = '-' then (true, rest)
      else if c = '+' then (false, rest) else (false, c :: rest)
    let digits := signed.2
    if digits ≠ [] ∧ digits.all Char.isDigit then
      let n : Int := digits.foldl (fun acc d => acc * 10 + (d.toNat - '0'.toNat : Int)) 0
      Option.some (if signed.1 then -n else n)
    else Option.none

/-- Python `int(x)` on a `Value` (`Option.none` = `ValueError`/`TypeError`). -/
def pyInt : Value → Option Int
  | .vNone => Option.none
  | .vBool b => Option.some (if b then 1 else 0)
  | .vInt n => Option.some n
  | .vStr s => parseIntStr s

/-- `key in d and d[key]`: the key is present and its value is truthy. -/
def keyTruthy : Option Value → Bool
  | Option.some v => v.truthy
  | Option.none => false

/-- Python `a or b` on values read out of dictionaries. -/
def pyOr (a b : Value) : Value := if a.truthy then a else b

/-- A raw metadata dictionary restricted to the six keys the pipeline probes.
`Option.none` means the key is absent; `Option.some .vNone` means the key is
present with value `None`. -/
structure RawMetadata where
  description : Option Value := Option.none
  group : Option Value := Option.none
  item_year : Option Value := Option.none
  item_year_to : Option Value := Option.none
  reference_url : Option Value := Option.none
  image_url : Option Value := Option.none
deriving DecidableEq, Repr

/-- `d.get(k)` on a raw metadata dictionary (absent key gives `None`). -/
def rmGet (m : RawMetadata) : String → Value
  | "description" => (m.description).getD .vNone
  | "group" => (m.group).getD .vNone
  | "item_year" => (m.item_year).getD .vNone
  | "item_year_to" => (m.item_year_to).getD .vNone
  | "reference_url" => (m.reference_url).getD .vNone
  | "image_url" => (m.image_url).getD .vNone
  | _ => .vNone

/-- Python dict truthiness of a `RawMetadata`: `False` iff no key is present. -/
def rmNonEmpty (m : RawMetadata) : Bool :=
  m.description.isSome || m.group.isSome || m.item_year.isSome ||
  m.item_year_to.isSome || m.reference_url.isSome || m.image_url.isSome

/-- Output of `_validate_llm_metadata`: the validated candidate mapping.  The
validator only ever emits these four keys. -/
structure CandidateMetadata where
  description : Option String := Option.none
  group : Option String := Option.none
  item_year : Option Int := Option.none
  item_year_to : Option Int := Option.none
deriving DecidableEq, Repr

/-- `llm_data.get(k)` on a validated candidate mapping. -/
def cmGet (d : CandidateMetadata) : String → Value
  | "description" => match d.description with
    | Option.some s => .vStr s
    | Option.none => .vNone
  | "group" => match d.group with
    | Option.some s => .vStr s
    | Option.none => .vNone
  | "item_year" => match d.item_year with
    | Option.some n => .vInt n
    | Option.none => .vNone
  | "item_year_to" => match d.item_year_to with
    | Option.some n => .vInt n
    | Option.none => .vNone
  | _ => .vNone

/-- The `category_group_mappings` table from `ItemMetadataService.__init__`. -/
def categoryGroupMappings : List (String × List (String × List String)) :=
  [("games",
     [("video_games",
        ["Action", "Adventure", "RPG", "Strategy", "Simulation",
         "Sports", "Racing", "Puzzle", "Platform", "Fighting",
         "Shooter", "Horror", "Indie", "MMO", "MOBA"])]),
   ("sports",
     [("soccer", ["Club Team", "National Team", "League"]),
      ("basketball", ["NBA Team", "International Team", "College"]),
      ("hockey", ["NHL Team", "International Team", "Junior League"])]),
   ("music",
     [("artists", ["Pop", "Rock", "Hip-Hop", "Electronic", "Classical", "Jazz", "Country"]),
      ("albums", ["Studio Album", "Live Album", "Compilation", "EP", "Soundtrack"])])]

/-- `needle` starts `hay` (character lists). -/
def startsWithChars : List Char → List Char → Bool
  | [], _ => true
  | _ :: _, [] => false
  | a :: as, b :: bs => a = b && startsWithChars as bs

/-- `needle in hay` for Python strings: contiguous substring test. -/
def containsSub (needle : List Char) : List Char → Bool
  | [] => startsWithChars needle []
  | c :: rest => startsWithChars needle (c :: rest) || containsSub needle rest

/-- Python `s.lower()` (ASCII, which covers every string the code compares). -/
def strLower (s : String) : String := String.mk (s.data.map Char.toLower)

/-- `_validate_group`: normalize a group name against the controlled
vocabulary for the category/subcategory, trying a case-insensitive exact
match, then a case-insensitive substring match in either direction; with no
match (or no vocabulary) the raw string passes through unchanged. -/
def validateGroup (group : String) (category subcategory : String) : String :=
  match categoryGroupMappings.lookup category with
  | Option.none => group
  | Option.some subMap =>
    let subcategoryGroups := (subMap.lookup subcategory).getD []
    match subcategoryGroups.find? (fun vg => strLower group = strLower vg) with
    | Option.some vg => vg
    | Option.none =>
      match subcategoryGroups.find? (fun vg =>
          containsSub (strLower group).data (strLower vg).data ||
          containsSub (strLower vg).data (strLower group).data) with
      | Option.some vg => vg
      | Option.none => group

/-- Python `str(x)[:500]`. -/
def truncate500 (s : String) : String := String.mk (s.data.take 500)

/-- `_validate_llm_metadata`: validate and clean the raw LLM metadata.
`currentYear` stands for `datetime.now().year`. -/
def validateLlmMetadata (currentYear : Int) (raw : RawMetadata)
    (category subcategory : String) : CandidateMetadata :=
  let d := if keyTruthy raw.description then
      Option.some (truncate500 (pyStr (raw.description.getD .vNone)))
    else Option.none
  let g := if keyTruthy raw.group then
      Option.some (validateGroup (pyStr (raw.group.getD .vNone)) category subcategory)
    else Option.none
  let y := if keyTruthy raw.item_year then
      match pyInt (raw.item_year.getD .vNone) with
      | Option.some n =>
        if 1800 ≤ n ∧ n ≤ currentYear + 2 then Option.some n else Option.none
      | Option.none => Option.none
    else Option.none
  let yTo := if keyTruthy raw.item_year_to then
      match pyInt (raw.item_year_to.getD .vNone) with
      | Option.some n =>
        if 1800 ≤ n ∧ n ≤ currentYear + 2 then Option.some n else Option.none
      | Option.none => Option.none
    else Option.none
  { description := d, group := g, item_year := y, item_year_to := yTo }

/-- The `core_attributes` list of `_identify_missing_attributes`. -/
def coreAttributes : List String := ["description", "group", "item_year"]

/-- The `enhancement_attributes` list of `_identify_missing_attributes`. -/
def enhancementAttributes : List String := ["reference_url", "image_url"]

/-- `_identify_missing_attributes`: core attributes that are absent or falsy
in the LLM data, followed by the always-attempted enhancement attributes. -/
def identifyMissingAttributes (llm_data : CandidateMetadata) : List String :=
  (coreAttributes.filter (fun attr => !(cmGet llm_data attr).truthy)) ++
    enhancementAttributes

/-- Result of `search_wikipedia_metadata` as consumed by `_research_with_web`
(the dictionary keys the code reads: `success`, `metadata`, `reference_url`,
`error`). -/
structure SearchResult where
  success : Bool := false
  metadata : RawMetadata := {}
  reference_url : Option Value := Option.none
  error : Option String := Option.none
deriving DecidableEq, Repr

/-- Result dictionary of `_research_with_web`. -/
structure WebResult where
  web_confidence : Nat := 0
  web_data : RawMetadata := {}
  web_error : Option String := Option.none
  web_info : Option String := Option.none
  web_method : Option String := Option.none
  missing_attributes_found : List String := []
deriving DecidableEq, Repr

/-- The dict-comprehension filter of `_research_with_web`: keep exactly the
keys that are in the missing-attribute set with a value that `is not None`. -/
def filterWebMetadata (web_metadata : RawMetadata) (missing : List String) :
    RawMetadata :=
  let keep (k : String) (v : Option Value) : Option Value :=
    match v with
    | Option.some x =>
      if k ∈ missing ∧ x ≠ .vNone then Option.some x else Option.none
    | Option.none => Option.none
  { description := keep "description" web_metadata.description,
    group := keep "group" web_metadata.group,
    item_year := keep "item_year" web_metadata.item_year,
    item_year_to := keep "item_year_to" web_metadata.item_year_to,
    reference_url := keep "reference_url" web_metadata.reference_url,
    image_url := keep "image_url" web_metadata.image_url }

/-- The key list of a filtered metadata dictionary (field order; only used
for the informational `missing_attributes_found` list). -/
def rmKeys (m : RawMetadata) : List String :=
  (if m.description.isSome then ["description"] else []) ++
  (if m.group.isSome then ["group"] else []) ++
  (if m.item_year.isSome then ["item_year"] else []) ++
  (if m.item_year_to.isSome then ["item_year_to"] else []) ++
  (if m.reference_url.isSome then ["reference_url"] else []) ++
  (if m.image_url.isSome then ["image_url"] else [])

/-- `_research_with_web`: Wikipedia enrichment for the missing attributes.
`webAvailable` models `self.web_service._service_available`; `searchOutcome`
models the `search_wikipedia_metadata` call (`Except.error` = the call
raised, which the surrounding `try` converts into a zero-confidence result).
-/
def researchWithWeb (webAvailable : Bool)
    (searchOutcome : Except String SearchResult)
    (llm_data : CandidateMetadata) : WebResult :=
  if !webAvailable then
    { web_error := Option.some "Firecrawl not available" }
  else
    let missing_attributes := identifyMissingAttributes llm_data
    if missing_attributes.isEmpty then
      { web_info := Option.some "No missing attributes" }
    else
      match searchOutcome with
      | Except.error e => { web_error := Option.some e }
      | Except.ok web_result =>
        if !web_result.success then
          { web_error := Option.some (web_result.error.getD "Wikipedia search failed") }
        else
          let filtered := filterWebMetadata web_result.metadata missing_attributes
          let filtered :=
            if keyTruthy web_result.reference_url then
              { filtered with reference_url := web_result.reference_url }
            else filtered
          { web_confidence := 70,
            web_data := filtered,
            web_method := Option.some "wikipedia_enhancement",
            missing_attributes_found := rmKeys filtered }

/-- Result dictionary of `_research_with_llm`. -/
structure LlmResult where
  llm_confidence : Nat := 0
  llm_data : CandidateMetadata := {}
  llm_error : Option String := Option.none
  llm_method : Option String := Option.none
deriving DecidableEq, Repr

/-- `_research_with_llm`: primary LLM research.  `llmAvailable` models
`self.llm_client.is_available()`; `llmOutcome` models the
`research_metadata` call returning a raw metadata mapping (`Except.error`
= the call raised; the stage's `try` converts it into a zero-confidence
result). -/
def researchWithLlm (currentYear : Int) (llmAvailable : Bool)
    (llmOutcome : Except String RawMetadata)
    (category subcategory : String) : LlmResult :=
  if !llmAvailable then
    { llm_error := Option.some "LLM client not available" }
  else
    match llmOutcome with
    | Except.error e => { llm_error := Option.some e }
    | Except.ok metadata_response =>
      { llm_confidence := 90,
        llm_data := validateLlmMetadata currentYear metadata_response category subcategory,
        llm_method := Option.some "groq_metadata_research" }

/-- The fused research result returned by the orchestrator.  Fields mirror
the `combined` dictionary of `_combine_research_results` (the exception-path
dictionary of `research_item_metadata` omits the `item_year_to`,
`primary_source`, `enhancement_source` and `missing_attributes_filled` keys;
that absence is modelled by their null/default values, which is how the
pydantic response layer reads them). -/
structure ResearchResult where
  description : Value := .vNone
  group : Value := .vNone
  item_year : Value := .vNone
  item_year_to : Value := .vNone
  reference_url : Value := .vNone
  image_url : Value := .vNone
  llm_confidence : Nat := 0
  web_sources_found : Nat := 0
  research_method : String := "llm_primary_web_enhancement"
  research_errors : List String := []
  primary_source : Option String := Option.none
  enhancement_source : Option String := Option.none
  missing_attributes_filled : List String := []
  research_depth : String := "standard"
deriving DecidableEq, Repr

/-- `_combine_research_results`: fuse the LLM and web stage results with the
LLM as primary source.  The `category`/`subcategory` parameters are accepted
and ignored, as in the source. -/
def combineResearchResults (llm_result : LlmResult) (web_result : WebResult)
    (_category _subcategory : String) : ResearchResult :=
  let research_errors :=
    (match llm_result.llm_error with
     | Option.some e => ["LLM: " ++ e]
     | Option.none => []) ++
    (match web_result.web_error with
     | Option.some e => ["Web: " ++ e]
     | Option.none => [])
  let llm_confidence := llm_result.llm_confidence
  let web_confidence := web_result.web_confidence
  let conf :=
    if web_confidence > 0 ∧ rmNonEmpty web_result.web_data then
      min (llm_confidence + 5) 95
    else llm_confidence
  let llm_data := llm_result.llm_data
  let web_data := web_result.web_data
  { description := pyOr (cmGet llm_data "description") (rmGet web_data "description"),
    group := pyOr (cmGet llm_data "group") (rmGet web_data "group"),
    item_year := pyOr (cmGet llm_data "item_year") (rmGet web_data "item_year"),
    item_year_to := pyOr (cmGet llm_data "item_year_to") (rmGet web_data "item_year_to"),
    reference_url := rmGet web_data "reference_url",
    image_url := rmGet web_data "image_url",
    llm_confidence := conf,
    web_sources_found := if web_confidence > 0 then 1 else 0,
    research_method := "llm_primary_web_enhancement",
    research_errors := research_errors,
    primary_source := Option.some "llm_training_data",
    enhancement_source :=
      if rmNonEmpty web_data then Option.some "wikipedia" else Option.none,
    missing_attributes_filled := web_result.missing_attributes_found }

/-- The external-world inputs of one research call: the current year, the
collaborators' availability, and the outcomes of the two network calls. -/
structure PipelineEnv where
  currentYear : Int
  llmAvailable : Bool
  llmOutcome : Except String RawMetadata
  webAvailable : Bool
  webOutcome : Except String SearchResult
deriving Repr

/-- The body of `research_item_metadata` (steps 1–3 inside the `try`). -/
def researchBody (env : PipelineEnv) (category subcategory research_depth : String) :
    ResearchResult :=
  let llm_result :=
    researchWithLlm env.currentYear env.llmAvailable env.llmOutcome category subcategory
  let web_result := researchWithWeb env.webAvailable env.webOutcome llm_result.llm_data
  let combined := combineResearchResults llm_result web_result category subcategory
  { combined with research_depth := research_depth }

/-- The dictionary returned by `research_item_metadata`'s `except` clause. -/
def failedResearchResult (e : String) (research_depth : String) : ResearchResult :=
  { description := .vNone, group := .vNone, item_year := .vNone,
    item_year_to := .vNone, reference_url := .vNone, image_url := .vNone,
    llm_confidence := 0, web_sources_found := 0, research_method := "failed",
    research_errors := [e], research_depth := research_depth }

/-- `research_item_metadata`: the whole pipeline inside one `try`/`except`.
`fatal = Option.some e` models an unexpected exception `e` escaping the body
(the single fatal-catch boundary); `fatal = Option.none` is the normal path.
The function is total: no exception propagates to the caller. -/
def researchItemMetadata (env : PipelineEnv) (fatal : Option String)
    (category subcategory research_depth : String) : ResearchResult :=
  match fatal with
  | Option.some e => failedResearchResult e research_depth
  | Option.none => researchBody env category subcategory research_depth

/-! ### Item creation from research data (`create_item_from_research`) -/

/-- A Python dictionary with string keys, as passed to
`create_item_from_research` (`research_data`). -/
def PyDict := List (String × Value)

/-- `d.get(k)`: the stored value (even if `None`), or `None` if absent. -/
def pyDictGet (d : PyDict) (k : String) : Value :=
  match List.lookup k d with
  | Option.some v => v
  | Option.none => .vNone

/-- `d.get(k, default)`: the stored value (even if `None`) when the key is
present, otherwise the default. -/
def pyDictGetD (d : PyDict) (k : String) (default : Value) : Value :=
  match List.lookup k d with
  | Option.some v => v
  | Option.none => default

/-- The fused result as the dictionary `create_item_from_research` receives
(metadata keys only, in the insertion order of `_combine_research_results`;
the non-metadata keys are never read by `create_item_from_research`). -/
def researchResultToDict (r : ResearchResult) : PyDict :=
  [("description", r.description), ("group", r.group),
   ("item_year", r.item_year), ("item_year_to", r.item_year_to),
   ("reference_url", r.reference_url), ("image_url", r.image_url)]

/-- Python `str.title()`: uppercase each letter that starts a run of
letters, lowercase the other letters. -/
def pyTitleGo : Bool → List Char → List Char
  | _, [] => []
  | prevAlpha, ch :: rest =>
    (if ch.isAlpha then (if prevAlpha then ch.toLower else ch.toUpper) else ch) ::
      pyTitleGo ch.isAlpha rest

/-- Python `s.title()`. -/
def pyTitle (s : String) : String := String.mk (pyTitleGo false s.data)

/-- The `ItemCreate` pydantic model, restricted to the fields
`create_item_from_research` fills. -/
structure ItemCreate where
  name : String
  category : String
  subcategory : String
  description : Value
  group : Value
  item_year : Value
  item_year_to : Value
  image_url : Value
  reference_url : Value
deriving DecidableEq, Repr

/-- `create_item_from_research`: build the `ItemCreate` payload from a
research-data dictionary, with the title-cased `"<subcategory> item"`
fallback as the `.get` default for the description. -/
def createItemFromResearch (name category subcategory : String)
    (research_data : PyDict) : ItemCreate :=
  { name := name, category := category, subcategory := subcategory,
    description :=
      pyDictGetD research_data "description" (.vStr (pyTitle subcategory ++ " item")),
    group := pyDictGet research_data "group",
    item_year := pyDictGet research_data "item_year",
    item_year_to := pyDictGet research_data "item_year_to",
    image_url := pyDictGet research_data "image_url",
    reference_url := pyDictGet research_data "reference_url" }

/-! ### Request-level policy (`src/routes/wiki.py`) -/

/-- The `DuplicateAction` enum (from `models.top_models.enums`, used by the
route as `reject`/`allow`). -/
inductive DuplicateAction where
  | reject : DuplicateAction
  | allow : DuplicateAction
deriving DecidableEq, Repr

/-- The `ItemResearchRequest` model (fields the handler reads). -/
structure ItemResearchRequest where
  name : String
  category : String
  subcategory : String
  auto_create : Bool := false
  allow_duplicate : Bool := false
  research_depth : String := "standard"
  duplicate_action : DuplicateAction := .reject
deriving Repr

/-- The `DuplicateInfo` model (fields the policy reads). -/
structure DuplicateInfo where
  is_duplicate : Bool
  duplicate_count : Nat
  exact_match : Bool := false
deriving DecidableEq, Repr

/-- Output of `item_validation_service.validate_item_request`. -/
structure ValidationResult where
  is_valid : Bool
  errors : List String
deriving Repr

/-- A created catalog item, as returned by `create_item_from_research`
(the route only reads its `id`). -/
structure CreatedItem where
  id : String
deriving DecidableEq, Repr

/-- The `ItemResearchResponse` model. -/
structure ItemResearchResponse where
  name : String
  category : String
  subcategory : String
  is_valid : Bool := true
  validation_errors : List String := []
  duplicate_info : DuplicateInfo
  description : Value := .vNone
  group : Value := .vNone
  item_year : Value := .vNone
  item_year_to : Value := .vNone
  reference_url : Value := .vNone
  image_url : Value := .vNone
  research_performed : Bool := false
  llm_confidence : Nat := 0
  web_sources_found : Nat := 0
  research_method : String := "none"
  research_errors : List String := []
  item_created : Bool := false
  item_id : Option String := Option.none
deriving Repr

/-- The `research_item_metadata` route handler of `src/routes/wiki.py`.
External collaborators are explicit inputs: `validation_result` and `dup`
are the validation service's answers, `research_result` is the
orchestrator's answer for the request, and `creationOutcome` is the outcome
of `create_item_from_research` when it is invoked (`Except.error` = the call
raised, which the handler recovers locally). -/
def routeResearchItemMetadata (request : ItemResearchRequest)
    (validation_result : ValidationResult) (dup : DuplicateInfo)
    (research_result : ResearchResult)
    (creationOutcome : Except String (Option CreatedItem)) : ItemResearchResponse :=
  if ¬ validation_result.is_valid then
    { name := request.name, category := request.category,
      subcategory := request.subcategory, is_valid := false,
      validation_errors := validation_result.errors,
      duplicate_info := { is_duplicate := false, duplicate_count := 0 },
      research_performed := false }
  else if dup.is_duplicate ∧ ¬ request.allow_duplicate then
    { name := request.name, category := request.category,
      subcategory := request.subcategory, is_valid := true,
      duplicate_info := dup, research_performed := false,
      research_method := "blocked_by_duplicate",
      research_errors := ["Item already exists in database. " ++
        toString dup.duplicate_count ++ " similar items found."] }
  else
    let response : ItemResearchResponse :=
      { name := request.name, category := request.category,
        subcategory := request.subcategory, is_valid := true,
        duplicate_info := dup, research_performed := true,
        description := research_result.description,
        group := research_result.group,
        item_year := research_result.item_year,
        item_year_to := research_result.item_year_to,
        reference_url := research_result.reference_url,
        image_url := research_result.image_url,
        llm_confidence := research_result.llm_confidence,
        web_sources_found := research_result.web_sources_found,
        research_method := research_result.research_method,
        research_errors := research_result.research_errors }
    let response :=
      if dup.is_duplicate then
        { response with research_errors := response.research_errors ++
            ["Note: " ++ toString dup.duplicate_count ++
             " similar items already exist in database"] }
      else response
    if request.auto_create ∧ research_result.llm_confidence > 70 ∧
        (¬ dup.exact_match ∨ request.duplicate_action = .allow) then
      match creationOutcome with
      | Except.ok (Option.some created_item) =>
        { response with item_created := true, item_id := Option.some created_item.id }
      | Except.ok Option.none => response
      | Except.error e =>
        { response with research_errors := response.research_errors ++
            ["Auto-creation failed: " ++ e] }
    else if request.auto_create ∧ dup.exact_match then
      { response with research_errors := response.research_errors ++
          ["Auto-creation blocked: exact duplicate found"] }
    else response

/-! ### JSON recovery (`src/scripts/new.py`: `clean_json_response`,
`extract_json_from_response`, `manual_json_extraction`) -/

/-- The backtick character (written via its code point). -/
def backtick : Char := Char.ofNat 96

/-- The literal prefix matched by the fence-opening pattern. -/
def fenceJsonPat : List Char :=
  backtick :: backtick :: backtick :: 'j' :: 's' :: 'o' :: 'n' :: []

/-- The literal matched by the fence-closing pattern. -/
def fencePat : List Char := [backtick, backtick, backtick]

/-- Worker of `subFenceJson`; the fuel argument (always at least the length
of the text) makes the recursion structural. -/
def subFenceJsonGo : Nat → List Char → List Char
  | 0, s => s
  | _ + 1, [] => []
  | fuel + 1, c :: rest =>
    if startsWithChars fenceJsonPat (c :: rest) then
      subFenceJsonGo fuel (dropWhileCh isPySpace (rest.drop 6))
    else c :: subFenceJsonGo fuel rest

/-- The global substitution removing every occurrence of three backticks,
`json` and following whitespace. -/
def subFenceJson (s : List Char) : List Char := subFenceJsonGo s.length s

/-- The end-anchored substitution removing a trailing fence: the match
exists at the leftmost position where three backticks are followed by
whitespace only, and (being greedy) extends to the end of the string. -/
def subFenceEnd (s : List Char) : List Char :=
  match (List.range s.length).find? (fun i =>
      startsWithChars fencePat (s.drop i) && (s.drop (i + 3)).all isPySpace) with
  | Option.some i => s.take i
  | Option.none => s

/-- Leftmost match of the comment pattern (two slashes whose preceding
character is not a colon): `prev` is the character before the current
position. -/
def findCmt (prev : Char) : List Char → Option Nat
  | [] => Option.none
  | c :: rest =>
    if c = '/' ∧ rest.head? = Option.some '/' ∧ prev ≠ ':' then Option.some 0
    else (findCmt c rest).map (· + 1)

/-- Leftmost comment-marker index in a line (the sentinel previous character
makes position 0 eligible). -/
def findCommentIdx (s : List Char) : Option Nat := findCmt '\x00' s

/-- The per-line trailing-comma substitution: remove a final comma together
with the whitespace after it; a line with no such comma is unchanged. -/
def subTrailingCommaEOL (l : List Char) : List Char :=
  let r := rstripChars l
  match r.getLast? with
  | Option.some c => if c = ',' then r.dropLast else l
  | Option.none => l

/-- Per-line processing of `clean_json_response`: remove a non-URL comment,
right-strip, and drop a trailing comma the removal exposed. -/
def cleanLine (line : List Char) : List Char :=
  match findCommentIdx line with
  | Option.some i => subTrailingCommaEOL (rstripChars (line.take i))
  | Option.none => line

/-- Python `text.split('\n')`. -/
def splitOnNL : List Char → List (List Char)
  | [] => [[]]
  | c :: rest =>
    if c = '\n' then [] :: splitOnNL rest
    else
      match splitOnNL rest with
      | [] => [[c]]
      | l :: ls => (c :: l) :: ls

/-- Worker of `subTrailingCommasGlobal`; the fuel argument (always at least
the length of the text) makes the recursion structural. -/
def subTrailingCommasGo : Nat → List Char → List Char
  | 0, s => s
  | _ + 1, [] => []
  | fuel + 1, c :: rest =>
    if c = ',' then
      match dropWhileCh isPySpace rest with
      | b :: tail =>
        if b = '}' ∨ b = ']' then
          (rest.takeWhile isPySpace) ++ b :: subTrailingCommasGo fuel tail
        else c :: subTrailingCommasGo fuel rest
      | [] => c :: subTrailingCommasGo fuel rest
    else c :: subTrailingCommasGo fuel rest

/-- The global substitution removing a comma that is followed by whitespace
and a closing brace or bracket (non-overlapping, left to right). -/
def subTrailingCommasGlobal (s : List Char) : List Char :=
  subTrailingCommasGo s.length s

/-- Python `'\n'.join(lines)`. -/
def joinNL : List (List Char) → List Char
  | [] => []
  | [l] => l
  | l :: ls => l ++ '\n' :: joinNL ls

/-- `clean_json_response`: strip code fences, strip the text, remove non-URL
line comments (dropping a comma each removal exposes), rejoin, remove
dangling commas before closing brackets, and strip again. -/
def cleanJsonResponse (text : String) : String :=
  let t1 := subFenceJson text.data
  let t2 := subFenceEnd t1
  let t3 := stripChars t2
  let cleaned_lines := (splitOnNL t3).map cleanLine
  let t4 := joinNL cleaned_lines
  let t5 := subTrailingCommasGlobal t4
  String.mk (stripChars t5)

/-! A model of `json.loads` on the fragment the pipeline exchanges: one flat
object whose values are escape-free strings, integers, `true`, `false` or
`null`.  Whitespace follows the JSON grammar. -/

/-- JSON grammar whitespace. -/
def isJsonWs (c : Char) : Bool := c = ' ' || c = '\t' || c = '\n' || c = '\r'

/-- Skip JSON whitespace. -/
def skipJsonWs : List Char → List Char := dropWhileCh isJsonWs

/-- Scan the body of a JSON string (no escape sequences). -/
def jStringGo (acc : List Char) : List Char → Option (String × List Char)
  | [] => Option.none
  | c :: rest =>
    if c = '"' then Option.some (String.mk acc.reverse, rest)
    else if c = '\\' then Option.none
    else jStringGo (c :: acc) rest

/-- Parse a JSON string literal. -/
def parseJString : List Char → Option (String × List Char)
  | '"' :: rest => jStringGo [] rest
  | _ => Option.none

/-- Parse a JSON integer (no leading zeros, no fraction or exponent). -/
def parseJNumber (s : List Char) : Option (Int × List Char) :=
  let signed : Bool × List Char :=
    match s with
    | '-' :: rest => (true, rest)
    | _ => (false, s)
  let digits := signed.2.takeWhile Char.isDigit
  let rest := signed.2.drop digits.length
  if digits = [] then Option.none
  else if digits.length > 1 ∧ digits.head? = Option.some '0' then Option.none
  else if rest.head? = Option.some '.' ∨ rest.head? = Option.some 'e' ∨
      rest.head? = Option.some 'E' then Option.none
  else
    let n : Int := digits.foldl (fun acc d => acc * 10 + (d.toNat - '0'.toNat : Int)) 0
    Option.some ((if signed.1 then -n else n), rest)

/-- Parse a JSON value of the flat fragment. -/
def parseJValue (s : List Char) : Option (Value × List Char) :=
  match s with
  | '"' :: _ => (parseJString s).map (fun p => (.vStr p.1, p.2))
  | 't' :: 'r' :: 'u' :: 'e' :: rest => Option.some (.vBool true, rest)
  | 'f' :: 'a' :: 'l' :: 's' :: 'e' :: rest => Option.some (.vBool false, rest)
  | 'n' :: 'u' :: 'l' :: 'l' :: rest => Option.some (.vNone, rest)
  | _ => (parseJNumber s).map (fun p => (.vInt p.1, p.2))

/-- Parse the members of a JSON object, up to and including the closing
brace. -/
def parseJMembers : Nat → List Char → Option (List (String × Value) × List Char)
  | 0, _ => Option.none
  | fuel + 1, s =>
    match parseJString (skipJsonWs s) with
    | Option.none => Option.none
    | Option.some (k, r1) =>
      match skipJsonWs r1 with
      | ':' :: r2 =>
        match parseJValue (skipJsonWs r2) with
        | Option.none => Option.none
        | Option.some (v, r3) =>
          match skipJsonWs r3 with
          | ',' :: r4 =>
            (parseJMembers fuel r4).map (fun p => ((k, v) :: p.1, p.2))
          | '}' :: r4 => Option.some ([(k, v)], r4)
          | _ => Option.none
      | _ => Option.none

/-- `json.loads` on the flat-object fragment: the whole input must be one
object, possibly surrounded by whitespace. -/
def jsonLoads (s : String) : Option (List (String × Value)) :=
  match skipJsonWs s.data with
  | '{' :: r =>
    match skipJsonWs r with
    | '}' :: r2 => if skipJsonWs r2 = [] then Option.some [] else Option.none
    | r1 =>
      match parseJMembers (r1.length + 1) r1 with
      | Option.some (ms, rest) =>
        if skipJsonWs rest = [] then Option.some ms else Option.none
      | Option.none => Option.none
  | _ => Option.none

/-- The brace-depth scan of `extract_json_from_response` (method 2): `orig`
is the whole text, `i` the current index, `count` the brace depth and
`start` the pending block start (`-1` = none). -/
def extractBlocksGo (orig : List Char) :
    List Char → Nat → Int → Int → List (List Char)
  | [], _, _, _ => []
  | c :: rest, i, count, start =>
    if c = '{' then
      if count = 0 then extractBlocksGo orig rest (i + 1) (count + 1) (Int.ofNat i)
      else extractBlocksGo orig rest (i + 1) (count + 1) start
    else if c = '}' then
      if count - 1 = 0 ∧ start ≠ -1 then
        ((orig.drop start.toNat).take (i + 1 - start.toNat)) ::
          extractBlocksGo orig rest (i + 1) (count - 1) (-1)
      else extractBlocksGo orig rest (i + 1) (count - 1) start
    else extractBlocksGo orig rest (i + 1) count start

/-- Every maximal balanced `{...}` span of the text. -/
def extractBlocks (s : List Char) : List (List Char) :=
  extractBlocksGo s s 0 0 (-1)

/-- Method 2: strip trailing commas inside each candidate block and return
the first block that parses. -/
def tryParseBlocks : List (List Char) → Option (List (String × Value))
  | [] => Option.none
  | b :: bs =>
    match jsonLoads (String.mk (subTrailingCommasGlobal b)) with
    | Option.some d => Option.some d
    | Option.none => tryParseBlocks bs

/-- Case-insensitive literal prefix test (`re.IGNORECASE`). -/
def startsWithCI : List Char → List Char → Bool
  | [], _ => true
  | _ :: _, [] => false
  | a :: as, b :: bs => a.toLower = b.toLower && startsWithCI as bs

/-- Try the fixed pattern for `key` at the head of `s`: a quoted key, a
colon, whitespace, then a quoted capture. -/
def matchKeyAt (key : List Char) (s : List Char) : Option String :=
  if startsWithCI ('"' :: key ++ ['"', ':']) s then
    match dropWhileCh isPySpace (s.drop (key.length + 3)) with
    | '"' :: rest =>
      let cap := rest.takeWhile (fun c => c ≠ '"')
      if (rest.drop cap.length).isEmpty then Option.none
      else Option.some (String.mk cap)
    | _ => Option.none
  else Option.none

/-- `re.search` for the fixed pattern of `key`: leftmost match. -/
def searchKeyPat (key : List Char) : List Char → Option String
  | [] => Option.none
  | c :: rest =>
    match matchKeyAt key (c :: rest) with
    | Option.some v => Option.some v
    | Option.none => searchKeyPat key rest

/-- The pattern keys of `manual_json_extraction`, in insertion order. -/
def manualPatternKeys : List String :=
  ["status", "item_year", "item_year_to", "reference_url", "image_url",
   "group", "description"]

/-- Method 3, `manual_json_extraction`: apply one fixed pattern per known
field; succeed only when a `status` value was found. -/
def manualJsonExtraction (text : List Char) : Option (List (String × Value)) :=
  let data := manualPatternKeys.foldl (fun acc key =>
    match searchKeyPat key.data text with
    | Option.some v => acc ++ [(key, Value.vStr v)]
    | Option.none => acc) []
  if data ≠ [] ∧ (List.lookup "status" data).isSome then Option.some data
  else Option.none

/-- `extract_json_from_response`: three escalating recovery stages, stopping
at the first success. -/
def extractJsonFromResponse (response_text : String) :
    Option (List (String × Value)) :=
  let cleaned_text := cleanJsonResponse response_text
  match jsonLoads cleaned_text with
  | Option.some d => Option.some d
  | Option.none =>
    match tryParseBlocks (extractBlocks cleaned_text.data) with
    | Option.some d => Option.some d
    | Option.none => manualJsonExtraction cleaned_text.data

/-! ### Helper lemmas -/

/-- The LLM stage only ever reports confidence 0 or 90. -/
theorem researchWithLlm_confidence_cases (currentYear : Int) (llmAvailable : Bool)
    (llmOutcome : Except String RawMetadata) (category subcategory : String) :
    (researchWithLlm currentYear llmAvailable llmOutcome category subcategory).llm_confidence = 0 ∨
    (researchWithLlm currentYear llmAvailable llmOutcome category subcategory).llm_confidence = 90 := by
  cases llmAvailable <;> cases llmOutcome <;> simp [researchWithLlm]

/-- The web stage only ever reports confidence 0 or 70. -/
theorem researchWithWeb_confidence_cases (webAvailable : Bool)
    (searchOutcome : Except String SearchResult) (llm_data : CandidateMetadata) :
    (researchWithWeb webAvailable searchOutcome llm_data).web_confidence = 0 ∨
    (researchWithWeb webAvailable searchOutcome llm_data).web_confidence = 70 := by
  unfold researchWithWeb
  repeat' split
  all_goals simp
  all_goals (split <;> simp)

/-! ### Claims -/

/-- C7: any exception escaping the research pipeline is caught at the single
top-level boundary: the orchestrator then returns a result in which every
metadata field is null, `llm_confidence` is 0, `research_method` is
`"failed"` and `research_errors` holds exactly the exception message.  The
orchestrator is a total function, so no exception propagates to its caller.
-/
theorem C7_fatal_catch_boundary (env : PipelineEnv) (e : String)
    (category subcategory research_depth : String) :
    let r := researchItemMetadata env (Option.some e) category subcategory research_depth
    r.description = .vNone ∧ r.group = .vNone ∧ r.item_year = .vNone ∧
    r.item_year_to = .vNone ∧ r.reference_url = .vNone ∧ r.image_url = .vNone ∧
    r.llm_confidence = 0 ∧ r.research_method = "failed" ∧
    r.research_errors = [e] := by
  simp [researchItemMetadata, failedResearchResult]

/-- C3: the fused `reference_url` and `image_url` are read from the web
stage's output dictionary only, for every environment — so they are null
whenever the web stage supplies no value, and they are never a value that
only the LLM stage produced, even when the raw LLM response carries one
(the validator never emits URL keys, and fusion does not consult the LLM
data for them). -/
theorem C3_urls_sourced_from_web_only (env : PipelineEnv)
    (category subcategory research_depth : String) :
    let llm_result :=
      researchWithLlm env.currentYear env.llmAvailable env.llmOutcome category subcategory
    let web_result := researchWithWeb env.webAvailable env.webOutcome llm_result.llm_data
    let r := researchBody env category subcategory research_depth
    r.reference_url = rmGet web_result.web_data "reference_url" ∧
    r.image_url = rmGet web_result.web_data "image_url" := by
  simp [researchBody, combineResearchResults]

/-- Fusion confidence takes one of the four values 0, 5, 90, 95 whenever the
LLM stage reported 0 or 90. -/
theorem combineResearchResults_confidence_cases (llm_result : LlmResult)
    (web_result : WebResult) (category subcategory : String)
    (h : llm_result.llm_confidence = 0 ∨ llm_result.llm_confidence = 90) :
    (combineResearchResults llm_result web_result category subcategory).llm_confidence = 0 ∨
    (combineResearchResults llm_result web_result category subcategory).llm_confidence = 5 ∨
    (combineResearchResults llm_result web_result category subcategory).llm_confidence = 90 ∨
    (combineResearchResults llm_result web_result category subcategory).llm_confidence = 95 := by
  rcases h with h | h <;> simp only [combineResearchResults, h] <;> split <;> simp

/-- C1 (amended): the fused `llm_confidence` equals the LLM stage's own
confidence, increased by 5 and capped at 95 exactly when the web stage ran
with confidence > 0 and contributed at least one field; since the LLM stage
reports 0 or 90, the result lies in {0, 5, 90, 95} — the value 5 (LLM
failed, web contributed) is reachable, so the claimed set {0, 90, 95} was
too small. -/
theorem C1_llm_confidence_bonus_rule (env : PipelineEnv)
    (category subcategory research_depth : String) :
    let llm_result :=
      researchWithLlm env.currentYear env.llmAvailable env.llmOutcome category subcategory
    let web_result := researchWithWeb env.webAvailable env.webOutcome llm_result.llm_data
    let r := researchBody env category subcategory research_depth
    (r.llm_confidence =
      if web_result.web_confidence > 0 ∧ rmNonEmpty web_result.web_data then
        min (llm_result.llm_confidence + 5) 95
      else llm_result.llm_confidence) ∧
    (r.llm_confidence = 0 ∨ r.llm_confidence = 5 ∨ r.llm_confidence = 90 ∨
      r.llm_confidence = 95) := by
  exact ⟨rfl,
    combineResearchResults_confidence_cases _ _ category subcategory
      (researchWithLlm_confidence_cases env.currentYear env.llmAvailable env.llmOutcome
        category subcategory)⟩

/-- C1 (counterexample): with the LLM unavailable and the web stage
contributing one field, the orchestrator's fused `llm_confidence` is 5,
which is none of the claimed values 0, 90, 95. -/
theorem C1_confidence_set_counterexample :
    let env : PipelineEnv :=
      { currentYear := 2025, llmAvailable := false, llmOutcome := Except.ok {},
        webAvailable := true,
        webOutcome := Except.ok
          { success := true,
            metadata := { description := Option.some (.vStr "An action role-playing game") } } }
    let r := researchBody env "games" "video_games" "standard"
    r.llm_confidence = 5 ∧
    ¬(r.llm_confidence = 0 ∨ r.llm_confidence = 90 ∨ r.llm_confidence = 95) := by
  decide

/-- C5 (amended): in the LLM-unavailable / web-complete scenario the fused
result carries the web-supplied description, group, year, reference URL and
image URL, reports `web_sources_found = 1` and exactly one LLM-unavailable
error — but `llm_confidence` is 5, not the claimed 0, because the fixed +5
web bonus is applied on top of the failed LLM stage's 0. -/
theorem C5_llm_unavailable_web_full_scenario :
    let env : PipelineEnv :=
      { currentYear := 2025, llmAvailable := false, llmOutcome := Except.ok {},
        webAvailable := true,
        webOutcome := Except.ok
          { success := true,
            metadata :=
              { description := Option.some (.vStr "Argentine professional footballer"),
                group := Option.some (.vStr "Club Team"),
                item_year := Option.some (.vInt 1987),
                image_url := Option.some (.vStr "https://img.example/messi.jpg") },
            reference_url := Option.some (.vStr "https://en.wikipedia.org/wiki/Lionel_Messi") } }
    let r := researchBody env "sports" "football" "standard"
    r.llm_confidence = 5 ∧ r.web_sources_found = 1 ∧
    r.description = .vStr "Argentine professional footballer" ∧
    r.group = .vStr "Club Team" ∧ r.item_year = .vInt 1987 ∧
    r.reference_url = .vStr "https://en.wikipedia.org/wiki/Lionel_Messi" ∧
    r.image_url = .vStr "https://img.example/messi.jpg" ∧
    r.research_errors = ["LLM: LLM client not available"] := by
  decide

/-- C5 (counterexample): in the claimed scenario the fused `llm_confidence`
is 5, not 0: the LLM stage reports 0 and the web contribution adds the
fixed +5 bonus. -/
theorem C5_confidence_zero_counterexample :
    let env : PipelineEnv :=
      { currentYear := 2024, llmAvailable := false, llmOutcome := Except.ok {},
        webAvailable := true,
        webOutcome := Except.ok
          { success := true,
            metadata :=
              { description := Option.some (.vStr "Argentine footballer born 1987"),
                group := Option.some (.vStr "National Team"),
                item_year := Option.some (.vInt 1987),
                image_url := Option.some (.vStr "https://img.example/lm10.jpg") },
            reference_url := Option.some (.vStr "https://en.wikipedia.org/wiki/Lionel_Messi") } }
    let r := researchBody env "sports" "football" "standard"
    r.llm_confidence = 5 ∧ ¬ r.llm_confidence = 0 := by
  decide

/-- Specification of the year-validation branch of `_validate_llm_metadata`:
the output holds `y` exactly when the raw value is present and truthy,
parses to `y`, and `y` lies within the bounds. -/
theorem yearBranch_spec (cy : Int) (o : Option Value) (y : Int) :
    (if keyTruthy o then
      match pyInt (o.getD .vNone) with
      | Option.some n =>
        if 1800 ≤ n ∧ n ≤ cy + 2 then Option.some n else Option.none
      | Option.none => Option.none
    else Option.none) = Option.some y ↔
    (keyTruthy o = true ∧ pyInt (o.getD .vNone) = Option.some y ∧
     1800 ≤ y ∧ y ≤ cy + 2) := by
  by_cases h : keyTruthy o
  · rw [if_pos h]
    cases hp : pyInt (o.getD .vNone) with
    | none => simp
    | some n =>
      dsimp only
      by_cases hr : 1800 ≤ n ∧ n ≤ cy + 2
      · rw [if_pos hr]
        constructor
        · intro h1
          obtain rfl : n = y := Option.some.inj h1
          exact ⟨h, rfl, hr.1, hr.2⟩
        · rintro ⟨_, h1, _, _⟩
          obtain rfl : n = y := Option.some.inj h1
          rfl
      · rw [if_neg hr]
        constructor
        · intro h1
          exact absurd h1 (by simp)
        · rintro ⟨_, h1, h2, h3⟩
          obtain rfl : n = y := Option.some.inj h1
          exact absurd ⟨h2, h3⟩ hr
  · rw [if_neg h]
    constructor
    · intro h1
      exact absurd h1 (by simp)
    · rintro ⟨h1, _, _⟩
      exact absurd h1 h

/-- C6: the Field Validator emits `item_year` (and `item_year_to`) exactly
when the raw value is present, truthy, parses as an integer `y` and
`1800 ≤ y ≤ current_year + 2`; parse failures and out-of-range values
silently omit the key (the validator is total, so no error is raised), and
every year present in the validated mapping satisfies the bounds. -/
theorem C6_validator_year_bounds (currentYear : Int) (raw : RawMetadata)
    (category subcategory : String) :
    let v := validateLlmMetadata currentYear raw category subcategory
    (∀ y : Int, v.item_year = Option.some y ↔
      (keyTruthy raw.item_year = true ∧
       pyInt (raw.item_year.getD .vNone) = Option.some y ∧
       1800 ≤ y ∧ y ≤ currentYear + 2)) ∧
    (∀ y : Int, v.item_year_to = Option.some y ↔
      (keyTruthy raw.item_year_to = true ∧
       pyInt (raw.item_year_to.getD .vNone) = Option.some y ∧
       1800 ≤ y ∧ y ≤ currentYear + 2)) := by
  exact ⟨fun y => yearBranch_spec currentYear raw.item_year y,
    fun y => yearBranch_spec currentYear raw.item_year_to y⟩

/-- C6 witness: a concrete in-bounds string year is accepted verbatim. -/
theorem C6_validator_year_bounds_witness :
    (validateLlmMetadata 2025 { item_year := Option.some (.vStr "1990") }
      "sports" "soccer").item_year = Option.some 1990 :=
  ((C6_validator_year_bounds 2025 { item_year := Option.some (.vStr "1990") }
    "sports" "soccer").1 1990).mpr (by decide)

/-- C9: the missing-attribute set contains a core field exactly when that
field is absent or falsy in the LLM data, always contains `reference_url`
and `image_url`, and is therefore never empty — so the web stage's
"No missing attributes" early return is unreachable (its `web_info` tag is
never produced, for any collaborator behaviour). -/
theorem C9_missing_attribute_set (llm_data : CandidateMetadata) :
    identifyMissingAttributes llm_data ≠ [] ∧
    "reference_url" ∈ identifyMissingAttributes llm_data ∧
    "image_url" ∈ identifyMissingAttributes llm_data ∧
    (∀ attr ∈ coreAttributes,
      (attr ∈ identifyMissingAttributes llm_data ↔
        (cmGet llm_data attr).truthy = false)) ∧
    (∀ (webAvailable : Bool) (searchOutcome : Except String SearchResult),
      (researchWithWeb webAvailable searchOutcome llm_data).web_info = Option.none) := by
  refine ⟨?_, ?_, ?_, ?_, ?_⟩
  · simp [identifyMissingAttributes, enhancementAttributes]
  · simp [identifyMissingAttributes, enhancementAttributes]
  · simp [identifyMissingAttributes, enhancementAttributes]
  · intro attr h
    fin_cases h <;>
      by_cases h1 : (cmGet llm_data "description").truthy <;>
      by_cases h2 : (cmGet llm_data "group").truthy <;>
      by_cases h3 : (cmGet llm_data "item_year").truthy <;>
      simp_all [identifyMissingAttributes, coreAttributes, enhancementAttributes]
  · intro webAvailable searchOutcome
    unfold researchWithWeb
    repeat' split
    all_goals simp_all [identifyMissingAttributes, enhancementAttributes]

/-- C9 witness: on the empty LLM data every core field is missing and the
set is non-empty. -/
theorem C9_missing_attribute_set_witness :
    ("description" ∈ identifyMissingAttributes {} ↔
      (cmGet {} "description").truthy = false) ∧
    identifyMissingAttributes {} ≠ [] :=
  ⟨(C9_missing_attribute_set {}).2.2.2.1 "description" (by decide),
   (C9_missing_attribute_set {}).1⟩

/-- C10: a fused result dictionary always carries the `description` key, so
the `.get` default of `create_item_from_research` (the title-cased
`"<subcategory> item"` fallback) is bypassed for every fused result and
every default value: the created item's description equals the fused
description, and a null fused description yields a null item description
rather than the fallback text. -/
theorem C10_description_fallback_bypassed (llm_result : LlmResult)
    (web_result : WebResult)
    (category subcategory name icategory isubcategory : String) (d : Value) :
    let r := combineResearchResults llm_result web_result category subcategory
    pyDictGetD (researchResultToDict r) "description" d = r.description ∧
    (createItemFromResearch name icategory isubcategory
      (researchResultToDict r)).description = r.description ∧
    (r.description = .vNone →
      (createItemFromResearch name icategory isubcategory
        (researchResultToDict r)).description = .vNone) := by
  refine ⟨rfl, rfl, ?_⟩
  intro h
  exact h

/-- C10 witness: with both stages empty the fused description is null and
the created item's description is null, not the fallback text. -/
theorem C10_description_fallback_bypassed_witness :
    (createItemFromResearch "Lionel Messi" "sports" "football"
      (researchResultToDict (combineResearchResults {} {} "sports" "football"))).description
      = .vNone :=
  (C10_description_fallback_bypassed {} {} "sports" "football" "Lionel Messi"
    "sports" "football" (.vStr "Football item")).2.2 (by decide)

/-- The truncated description is at most 500 characters long. -/
theorem truncate500_length (s : String) : (truncate500 s).length ≤ 500 := by
  show (s.data.take 500).length ≤ 500
  simp [List.length_take]

/-- A description in the web stage's filtered data is non-null and was a
missing attribute. -/
theorem filterWebMetadata_description (m : RawMetadata) (missing : List String)
    (x : Value) :
    (filterWebMetadata m missing).description = Option.some x →
    x ≠ .vNone ∧ "description" ∈ missing := by
  simp only [filterWebMetadata]
  cases m.description with
  | none => simp
  | some v =>
    dsimp only
    split
    · rename_i hcond
      intro hx
      obtain rfl : v = x := Option.some.inj hx
      exact ⟨hcond.2, hcond.1⟩
    · simp

/-- A year in the web stage's filtered data is non-null and was a missing
attribute. -/
theorem filterWebMetadata_item_year (m : RawMetadata) (missing : List String)
    (x : Value) :
    (filterWebMetadata m missing).item_year = Option.some x →
    x ≠ .vNone ∧ "item_year" ∈ missing := by
  simp only [filterWebMetadata]
  cases m.item_year with
  | none => simp
  | some v =>
    dsimp only
    split
    · rename_i hcond
      intro hx
      obtain rfl : v = x := Option.some.inj hx
      exact ⟨hcond.2, hcond.1⟩
    · simp

/-- Any description the web stage returns passed only the missing/non-null
filter. -/
theorem researchWithWeb_description_filtered (webAvailable : Bool)
    (searchOutcome : Except String SearchResult) (llm_data : CandidateMetadata)
    (x : Value) :
    (researchWithWeb webAvailable searchOutcome llm_data).web_data.description
      = Option.some x →
    x ≠ .vNone ∧ "description" ∈ identifyMissingAttributes llm_data := by
  intro hx
  unfold researchWithWeb at hx
  dsimp only at hx
  repeat' split at hx
  all_goals
    first
    | exact filterWebMetadata_description _ _ _ hx
    | exact absurd hx (by simp)

/-- Any year the web stage returns passed only the missing/non-null filter.
-/
theorem researchWithWeb_item_year_filtered (webAvailable : Bool)
    (searchOutcome : Except String SearchResult) (llm_data : CandidateMetadata)
    (x : Value) :
    (researchWithWeb webAvailable searchOutcome llm_data).web_data.item_year
      = Option.some x →
    x ≠ .vNone ∧ "item_year" ∈ identifyMissingAttributes llm_data := by
  intro hx
  unfold researchWithWeb at hx
  dsimp only at hx
  repeat' split at hx
  all_goals
    first
    | exact filterWebMetadata_item_year _ _ _ hx
    | exact absurd hx (by simp)

/-- C2 (amended): only fields originating from the LLM stage pass the Field
Validator's bounds and vocabulary checks (years within bounds, description
truncated to 500 characters, group equal to the vocabulary normalization);
web-contributed fields are filtered only for being a missing attribute with
a non-null value and are not bounds-checked. -/
theorem C2_validation_covers_llm_fields_only (cy : Int) (raw : RawMetadata)
    (category subcategory : String) (webAvailable : Bool)
    (searchOutcome : Except String SearchResult) (llm_data : CandidateMetadata) :
    let v := validateLlmMetadata cy raw category subcategory
    let w := (researchWithWeb webAvailable searchOutcome llm_data).web_data
    (∀ y : Int, v.item_year = Option.some y → 1800 ≤ y ∧ y ≤ cy + 2) ∧
    (∀ y : Int, v.item_year_to = Option.some y → 1800 ≤ y ∧ y ≤ cy + 2) ∧
    (∀ s : String, v.description = Option.some s → s.length ≤ 500) ∧
    (∀ g : String, v.group = Option.some g →
      g = validateGroup (pyStr (raw.group.getD .vNone)) category subcategory) ∧
    (∀ x : Value, w.description = Option.some x →
      x ≠ .vNone ∧ "description" ∈ identifyMissingAttributes llm_data) ∧
    (∀ x : Value, w.item_year = Option.some x →
      x ≠ .vNone ∧ "item_year" ∈ identifyMissingAttributes llm_data) := by
  refine ⟨?_, ?_, ?_, ?_, ?_, ?_⟩
  · intro y hy
    have h := (yearBranch_spec cy raw.item_year y).mp hy
    exact ⟨h.2.2.1, h.2.2.2⟩
  · intro y hy
    have h := (yearBranch_spec cy raw.item_year_to y).mp hy
    exact ⟨h.2.2.1, h.2.2.2⟩
  · intro s hs
    show s.length ≤ 500
    by_cases h : keyTruthy raw.description
    · have : (validateLlmMetadata cy raw category subcategory).description
          = Option.some (truncate500 (pyStr (raw.description.getD .vNone))) := by
        simp [validateLlmMetadata, h]
      rw [this] at hs
      obtain rfl : truncate500 (pyStr (raw.description.getD .vNone)) = s :=
        Option.some.inj hs
      exact truncate500_length _
    · have : (validateLlmMetadata cy raw category subcategory).description
          = Option.none := by
        simp [validateLlmMetadata, h]
      rw [this] at hs
      exact absurd hs (by simp)
  · intro g hg
    by_cases h : keyTruthy raw.group
    · have : (validateLlmMetadata cy raw category subcategory).group
          = Option.some (validateGroup (pyStr (raw.group.getD .vNone)) category subcategory) := by
        simp [validateLlmMetadata, h]
      rw [this] at hg
      exact (Option.some.inj hg).symm
    · have : (validateLlmMetadata cy raw category subcategory).group = Option.none := by
        simp [validateLlmMetadata, h]
      rw [this] at hg
      exact absurd hg (by simp)
  · exact researchWithWeb_description_filtered webAvailable searchOutcome llm_data
  · exact researchWithWeb_item_year_filtered webAvailable searchOutcome llm_data

/-- C2 (counterexample): with the LLM empty and the web metadata carrying
`item_year = 5`, the orchestrator's fused result holds `item_year = 5`, a
value the Field Validator's bounds check rejects (5 < 1800) — so not every
non-null field of a `ResearchResult` has passed the validator. -/
theorem C2_unvalidated_web_year_counterexample :
    let env : PipelineEnv :=
      { currentYear := 2025, llmAvailable := false, llmOutcome := Except.ok {},
        webAvailable := true,
        webOutcome := Except.ok
          { success := true, metadata := { item_year := Option.some (.vInt 5) } } }
    let r := researchBody env "sports" "soccer" "standard"
    r.item_year = .vInt 5 ∧
    (validateLlmMetadata 2025 { item_year := Option.some (.vInt 5) }
      "sports" "soccer").item_year = Option.none ∧
    ¬ (1800 ≤ (5 : Int)) := by
  decide

/-- C2 witness: a concrete in-bounds validator output satisfies the bounds.
-/
theorem C2_validation_covers_llm_fields_only_witness :
    1800 ≤ (1990 : Int) ∧ (1990 : Int) ≤ 2025 + 2 :=
  (C2_validation_covers_llm_fields_only 2025
    { item_year := Option.some (.vStr "1990") } "sports" "soccer" false
    (Except.ok {}) {}).1 1990 (by decide)

/-- C4 (amended): with the auto-creation call succeeding, an item is created
exactly when `auto_create` is set, the response's `llm_confidence` exceeds
70, and the duplicate is not exact or `duplicate_action` is `allow`; and in
the exact-duplicate scenario with `auto_create = true`,
`duplicate_action = reject` and `allow_duplicate = true` (without which the
duplicate gate blocks research altogether), the response has
`item_created = false`, carries the explicit "Auto-creation blocked: exact
duplicate found" message, and still reports a performed research result. -/
theorem C4_auto_create_policy (request : ItemResearchRequest)
    (validation_result : ValidationResult) (dup : DuplicateInfo)
    (research_result : ResearchResult) (item : CreatedItem) :
    let resp := routeResearchItemMetadata request validation_result dup
      research_result (Except.ok (Option.some item))
    (resp.item_created = true ↔
      (request.auto_create = true ∧ resp.llm_confidence > 70 ∧
       (resp.duplicate_info.exact_match = false ∨
        request.duplicate_action = DuplicateAction.allow))) ∧
    (request.auto_create = true → request.duplicate_action = DuplicateAction.reject →
      dup.exact_match = true → request.allow_duplicate = true →
      validation_result.is_valid = true →
      resp.item_created = false ∧
      "Auto-creation blocked: exact duplicate found" ∈ resp.research_errors ∧
      resp.research_performed = true) := by
  by_cases hv : validation_result.is_valid <;>
    by_cases hd : dup.is_duplicate <;>
    by_cases ha : request.allow_duplicate <;>
    by_cases hac : request.auto_create <;>
    by_cases hex : dup.exact_match <;>
    by_cases hda : request.duplicate_action = DuplicateAction.allow <;>
    simp_all [routeResearchItemMetadata] <;>
    (split <;> simp_all)

/-- C4 (counterexample): the claimed scenario omits `allow_duplicate`; with
its default `false` an exact-match duplicate blocks the request before
research, so no research is performed and no "blocked: exact duplicate"
message is produced. -/
theorem C4_scenario_counterexample :
    let resp := routeResearchItemMetadata
      { name := "Lionel Messi", category := "sports", subcategory := "football",
        auto_create := true, allow_duplicate := false,
        duplicate_action := DuplicateAction.reject }
      { is_valid := true, errors := [] }
      { is_duplicate := true, duplicate_count := 1, exact_match := true }
      (failedResearchResult "unused" "standard")
      (Except.ok (Option.some { id := "item-1" }))
    resp.item_created = false ∧ resp.research_performed = false ∧
    ¬ "Auto-creation blocked: exact duplicate found" ∈ resp.research_errors := by
  decide

/-- C4 witness: a concrete exact-duplicate request with
`allow_duplicate = true` is blocked from creation with the explicit
message while research is performed. -/
theorem C4_auto_create_policy_witness :
    let resp := routeResearchItemMetadata
      { name := "Lionel Messi", category := "sports", subcategory := "football",
        auto_create := true, allow_duplicate := true,
        duplicate_action := DuplicateAction.reject }
      { is_valid := true, errors := [] }
      { is_duplicate := true, duplicate_count := 1, exact_match := true }
      (failedResearchResult "unused" "standard")
      (Except.ok (Option.some { id := "item-1" }))
    resp.item_created = false ∧
    "Auto-creation blocked: exact duplicate found" ∈ resp.research_errors ∧
    resp.research_performed = true :=
  (C4_auto_create_policy
    { name := "Lionel Messi", category := "sports", subcategory := "football",
      auto_create := true, allow_duplicate := true,
      duplicate_action := DuplicateAction.reject }
    { is_valid := true, errors := [] }
    { is_duplicate := true, duplicate_count := 1, exact_match := true }
    (failedResearchResult "unused" "standard")
    { id := "item-1" }).2 rfl rfl rfl rfl rfl

/-! ### Lemmas for the JSON-recovery claim -/

/-- Splitting never yields an empty list of lines. -/
theorem splitOnNL_ne_nil : ∀ s : List Char, splitOnNL s ≠ [] := by
  intro s
  induction s with
  | nil => simp [splitOnNL]
  | cons c rest ih =>
    simp only [splitOnNL]
    split
    · simp
    · cases h : splitOnNL rest with
      | nil => simp
      | cons l ls => simp

/-- A newline-free text splits into itself. -/
theorem splitOnNL_no_nl (a : List Char) (ha : '\n' ∉ a) : splitOnNL a = [a] := by
  induction a with
  | nil => rfl
  | cons c rest ih =>
    have hc : ¬ c = '\n' := fun h => ha (h ▸ List.mem_cons_self c rest)
    have hrest : '\n' ∉ rest := fun h => ha (List.mem_cons_of_mem _ h)
    simp only [splitOnNL, if_neg hc]
    rw [ih hrest]

/-- Splitting distributes over a newline after a newline-free first line. -/
theorem splitOnNL_append_nl (a : List Char) (ha : '\n' ∉ a) (rest : List Char) :
    splitOnNL (a ++ '\n' :: rest) = a :: splitOnNL rest := by
  induction a with
  | nil => simp [splitOnNL]
  | cons c t ih =>
    have hc : ¬ c = '\n' := fun h => ha (h ▸ List.mem_cons_self c t)
    have ht : '\n' ∉ t := fun h => ha (List.mem_cons_of_mem _ h)
    simp only [List.cons_append, splitOnNL, if_neg hc, List.append_eq]
    rw [ih ht]

/-- Joining newline-free lines and splitting again is the identity. -/
theorem splitOnNL_joinNL : ∀ (lines : List (List Char)), lines ≠ [] →
    (∀ l ∈ lines, '\n' ∉ l) → splitOnNL (joinNL lines) = lines := by
  intro lines
  induction lines with
  | nil => intro h; exact absurd rfl h
  | cons l ls ih =>
    intro _ hnl
    cases ls with
    | nil => simpa [joinNL] using splitOnNL_no_nl l (hnl l (by simp))
    | cons l2 ls2 =>
      have hj : joinNL (l :: l2 :: ls2) = l ++ '\n' :: joinNL (l2 :: ls2) := rfl
      rw [hj, splitOnNL_append_nl l (hnl l (by simp))]
      rw [ih (by simp) (fun x hx => hnl x (List.mem_cons_of_mem _ hx))]

/-- The comment scanner finds the marker of `", // ..."` at offset 2,
whatever precedes the scan. -/
theorem findCmt_marker (p : Char) (c : List Char) :
    findCmt p (',' :: ' ' :: '/' :: '/' :: ' ' :: c) = Option.some 2 := rfl

/-- Appending `", // <comment>"` to a comment-free line puts the leftmost
comment marker exactly after the line and the comma-space. -/
theorem findCmt_append (suffix : List Char) : ∀ (ll : List Char) (p : Char),
    findCmt p ll = Option.none →
    findCmt p (ll ++ ',' :: ' ' :: '/' :: '/' :: ' ' :: suffix)
      = Option.some (ll.length + 2) := by
  intro ll
  induction ll with
  | nil =>
    intro p _
    simpa using findCmt_marker p suffix
  | cons a as ih =>
    intro p h
    simp only [findCmt] at h
    by_cases hcond : (a = '/' ∧ as.head? = Option.some '/' ∧ p ≠ ':')
    · rw [if_pos hcond] at h
      exact absurd h (by simp)
    · rw [if_neg hcond] at h
      have has : findCmt a as = Option.none := by
        cases hfa : findCmt a as with
        | none => rfl
        | some k => rw [hfa] at h; exact absurd h (by simp)
      have hcond' : ¬ (a = '/' ∧
          (as ++ ',' :: ' ' :: '/' :: '/' :: ' ' :: suffix).head?
            = Option.some '/' ∧ p ≠ ':') := by
        cases as with
        | nil =>
          rintro ⟨_, hh, _⟩
          simp at hh
        | cons b bs =>
          rintro ⟨ha, hh, hp⟩
          exact hcond ⟨ha, by simpa using hh, hp⟩
      simp only [List.cons_append, findCmt, if_neg hcond', List.append_eq]
      rw [ih a has]
      all_goals simp only [Option.map_some, List.length_cons]
      all_goals exact congrArg Option.some (show as.length + 2 + 1 = as.length + 1 + 2 from by omega)

/-- Right-stripping a text ending in comma-space leaves the comma. -/
theorem rstripChars_comma_space (xs : List Char) :
    rstripChars (xs ++ [',', ' ']) = xs ++ [','] := by
  unfold rstripChars
  rw [List.reverse_append]
  show (dropWhileCh isPySpace (' ' :: ',' :: xs.reverse)).reverse = xs ++ [',']
  rw [show dropWhileCh isPySpace (' ' :: ',' :: xs.reverse)
      = ',' :: xs.reverse from by
    simp only [dropWhileCh, if_pos (by decide : isPySpace ' ' = true),
      if_neg (by decide : ¬ isPySpace ',' = true)]]
  simp

/-- Right-stripping a text ending in a comma is the identity. -/
theorem rstripChars_comma (xs : List Char) :
    rstripChars (xs ++ [',']) = xs ++ [','] := by
  unfold rstripChars
  rw [List.reverse_append]
  show (dropWhileCh isPySpace (',' :: xs.reverse)).reverse = xs ++ [',']
  rw [show dropWhileCh isPySpace (',' :: xs.reverse) = ',' :: xs.reverse from by
    simp only [dropWhileCh, if_neg (by decide : ¬ isPySpace ',' = true)]]
  simp

/-- Cleaning a comment-free line is the identity. -/
theorem cleanLine_id (l : List Char) (h : findCommentIdx l = Option.none) :
    cleanLine l = l := by
  unfold cleanLine
  rw [h]

/-- Cleaning a comment-free member line with `", // <comment>"` appended
removes the comment, the exposed comma and the whitespace, recovering the
bare line. -/
theorem cleanLine_dirty (ll c : List Char) (h : findCommentIdx ll = Option.none) :
    cleanLine (ll ++ ',' :: ' ' :: '/' :: '/' :: ' ' :: c) = ll := by
  unfold cleanLine
  rw [show findCommentIdx (ll ++ ',' :: ' ' :: '/' :: '/' :: ' ' :: c)
      = Option.some (ll.length + 2) from findCmt_append c ll '\x00' h]
  dsimp only
  have htake : (ll ++ ',' :: ' ' :: '/' :: '/' :: ' ' :: c).take (ll.length + 2)
      = ll ++ [',', ' '] := by
    rw [List.take_append_eq_append_take]
    rw [List.take_of_length_le (by omega)]
    congr 1
    simp
  rw [htake, rstripChars_comma_space]
  unfold subTrailingCommaEOL
  rw [rstripChars_comma]
  dsimp only
  rw [List.getLast?_concat]
  simp [List.dropLast_concat]

/-- Mapping the line cleaner over comment-free lines is the identity. -/
theorem map_cleanLine_id (L : List (List Char))
    (h : ∀ l ∈ L, findCommentIdx l = Option.none) : L.map cleanLine = L := by
  induction L with
  | nil => rfl
  | cons l ls ih =>
    simp only [List.map_cons]
    rw [cleanLine_id l (h l (by simp)),
      ih (fun x hx => h x (List.mem_cons_of_mem _ hx))]

/-- C8 (amended): for a flat JSON object written one member per line whose
only defects are a trailing `//` comment appended after the comma of the
FINAL member line (marker preceded by a space, hence not by a colon) and
that dangling comma itself, stage-1 cleanup recovers the clean text exactly:
the comment is cut, the right-strip and per-line comma removal drop the
exposed comma, every other line is untouched, and the cleaned text parses
directly into the intended mapping, so `extract_json_from_response` returns
it from stage 1 without falling through.  (The original claim allowed the
comment on any line; the counterexample shows a comment on a non-final
member line makes the per-line comma removal delete a required comma, so
stage-1 parsing fails there.) -/
theorem C8_final_line_comment_recovery
    (pre : List (List Char)) (lastLine c : List Char)
    (dirty clean : List Char) (m : List (String × Value))
    (hdirty : dirty = joinNL ([['{']] ++ pre ++
      [lastLine ++ ',' :: ' ' :: '/' :: '/' :: ' ' :: c] ++ [['}']]))
    (hclean : clean = joinNL ([['{']] ++ pre ++ [lastLine] ++ [['}']]))
    (h1 : ∀ l ∈ pre, findCommentIdx l = Option.none ∧ '\n' ∉ l)
    (h2 : findCommentIdx lastLine = Option.none)
    (h3 : '\n' ∉ lastLine) (h4 : '\n' ∉ c)
    (h5 : subFenceJson dirty = dirty) (h6 : subFenceEnd dirty = dirty)
    (h7 : stripChars dirty = dirty)
    (h8 : subTrailingCommasGlobal clean = clean)
    (h9 : stripChars clean = clean)
    (h10 : jsonLoads (String.mk clean) = Option.some m) :
    cleanJsonResponse (String.mk dirty) = String.mk clean ∧
    jsonLoads (cleanJsonResponse (String.mk dirty)) = Option.some m ∧
    extractJsonFromResponse (String.mk dirty) = Option.some m := by
  have hmid : '\n' ∉ lastLine ++ ',' :: ' ' :: '/' :: '/' :: ' ' :: c := by
    intro hmem
    rcases List.mem_append.mp hmem with hm | hm
    · exact h3 hm
    · simp only [List.mem_cons] at hm
      rcases hm with h | h | h | h | h | h
      · exact absurd h (by decide)
      · exact absurd h (by decide)
      · exact absurd h (by decide)
      · exact absurd h (by decide)
      · exact absurd h (by decide)
      · exact h4 h
  have hsplit : splitOnNL dirty = [['{']] ++ pre ++
      [lastLine ++ ',' :: ' ' :: '/' :: '/' :: ' ' :: c] ++ [['}']] := by
    rw [hdirty]
    apply splitOnNL_joinNL
    · simp
    · intro l hl
      simp only [List.append_assoc, List.mem_append, List.mem_cons,
        List.not_mem_nil, or_false] at hl
      rcases hl with rfl | hl | rfl | rfl
      · decide
      · exact (h1 l hl).2
      · exact hmid
      · decide
  have hmap : ([['{']] ++ pre ++
      [lastLine ++ ',' :: ' ' :: '/' :: '/' :: ' ' :: c] ++ [['}']]).map cleanLine
      = [['{']] ++ pre ++ [lastLine] ++ [['}']] := by
    simp only [List.map_append, List.map_cons, List.map_nil]
    rw [map_cleanLine_id pre (fun l hl => (h1 l hl).1),
      cleanLine_dirty lastLine c h2,
      cleanLine_id ['{'] (by decide), cleanLine_id ['}'] (by decide)]
  have hmain : cleanJsonResponse (String.mk dirty) = String.mk clean := by
    show String.mk (stripChars (subTrailingCommasGlobal (joinNL
      ((splitOnNL (stripChars (subFenceEnd (subFenceJson dirty)))).map cleanLine))))
      = String.mk clean
    rw [h5, h6, h7, hsplit, hmap, ← hclean, h8, h9]
  refine ⟨hmain, ?_, ?_⟩
  · rw [hmain]
    exact h10
  · simp only [extractJsonFromResponse]
    rw [hmain, h10]

/-- C8 (counterexample): a text whose only defects are a trailing `//`
comment on the FIRST member line and a trailing comma before the closing
brace — removing the comment and that comma by hand yields text that parses
to the intended mapping — is destroyed by stage-1 cleanup: the per-line
comma removal also deletes the required member-separating comma, the
cleaned text no longer parses, and all three recovery stages fail. -/
theorem C8_midline_comment_counterexample :
    jsonLoads "\x7b\n\"group\": \"RPG\",\n\"item_year\": 1990\n\x7d"
      = Option.some [("group", Value.vStr "RPG"), ("item_year", Value.vInt 1990)] ∧
    cleanJsonResponse "\x7b\n\"group\": \"RPG\", // genre comment\n\"item_year\": 1990,\n\x7d"
      = "\x7b\n\"group\": \"RPG\"\n\"item_year\": 1990\n\x7d" ∧
    jsonLoads (cleanJsonResponse
      "\x7b\n\"group\": \"RPG\", // genre comment\n\"item_year\": 1990,\n\x7d") = Option.none ∧
    extractJsonFromResponse
      "\x7b\n\"group\": \"RPG\", // genre comment\n\"item_year\": 1990,\n\x7d" = Option.none := by
  refine ⟨by decide, ?_, by decide, by decide⟩
  decide

/-- C8 witness: the spec's own scenario with the comment on the final member
line — `"group": "RPG", // genre comment` directly before `}` — is recovered
by stage-1 cleanup into the intended one-field mapping. -/
theorem C8_final_line_comment_recovery_witness :
    cleanJsonResponse (String.mk (joinNL ([[Char.ofNat 123]] ++ [] ++
      [("\"group\": \"RPG\"".data) ++ ',' :: ' ' :: '/' :: '/' :: ' ' :: ("genre comment".data)]
      ++ [[Char.ofNat 125]])))
      = String.mk (joinNL ([[Char.ofNat 123]] ++ [] ++ [("\"group\": \"RPG\"".data)]
        ++ [[Char.ofNat 125]])) ∧
    jsonLoads (cleanJsonResponse (String.mk (joinNL ([[Char.ofNat 123]] ++ [] ++
      [("\"group\": \"RPG\"".data) ++ ',' :: ' ' :: '/' :: '/' :: ' ' :: ("genre comment".data)]
      ++ [[Char.ofNat 125]]))))
      = Option.some [("group", Value.vStr "RPG")] ∧
    extractJsonFromResponse (String.mk (joinNL ([[Char.ofNat 123]] ++ [] ++
      [("\"group\": \"RPG\"".data) ++ ',' :: ' ' :: '/' :: '/' :: ' ' :: ("genre comment".data)]
      ++ [[Char.ofNat 125]])))
      = Option.some [("group", Value.vStr "RPG")] :=
  C8_final_line_comment_recovery [] ("\"group\": \"RPG\"".data) ("genre comment".data)
    _ _ [("group", Value.vStr "RPG")] rfl rfl (by simp) (by decide) (by decide) (by decide)
    (by decide) (by decide) (by decide) (by decide) (by decide) (by decide)

end Nenet
